import Mathlib

/-!
Verification of the AsyncMongo connection-lifecycle core.

This file shallowly embeds the core of the repository (`app/db/mongo/client.py`,
`factory.py`, `operations.py`, `repository.py`) in Lean 4 and proves the
specified properties about the embedding.

Modelling conventions:
- The Python object state of `MongoDBClient` becomes the record `ClientState`;
  the external world (wall clock, fresh connection/task identifiers, the set of
  closed connections, reachability of the store) becomes the record `World`,
  threaded explicitly through every operation.
- A Motor connection object (`AsyncIOMotorClient`) is represented by a fresh
  natural-number identifier drawn from `World.nextConn`; closing a connection
  records its identifier in `World.closed`.
- The wall clock advances by (at least) one unit at every awaited I/O step
  (a liveness probe, awaiting a cancelled task), so reads of `time.time()`
  are monotone and any awaited step strictly advances time.
- Fallible Python code returns `Except PyError`; an `Except.error` value is a
  raised exception, `Except.ok` a normal return.
-/

/-- Exceptions raised by the embedded code.  `connectionFailure` is pymongo's
`ConnectionFailure`, `connectionError` the built-in `ConnectionError` raised by
`get_database`, `valueError` the `ValueError` raised by the factory,
`invalidObjectId` is bson's `InvalidId`, and `attributeError` is the built-in
`AttributeError`. -/
inductive PyError where
  | connectionFailure
  | connectionError
  | valueError
  | invalidObjectId
  | attributeError
deriving DecidableEq

/-- `MongoDBConfig` from `client.py`: connection configuration values. -/
structure MongoDBConfig where
  uri : String
  max_pool_size : Nat := 10
  min_pool_size : Nat := 1
  max_idle_time_ms : Nat := 60000
  connect_timeout_ms : Nat := 5000
  server_selection_timeout_ms : Nat := 5000
  database : String := "default_db"
deriving DecidableEq

/-- The option dictionary produced by `MongoDBConfig.get_connection_options`. -/
structure ConnectionOptions where
  maxPoolSize : Nat
  minPoolSize : Nat
  maxIdleTimeMS : Nat
  connectTimeoutMS : Nat
  serverSelectionTimeoutMS : Nat
deriving DecidableEq

/-- `MongoDBConfig.get_connection_options` from `client.py`. -/
def MongoDBConfig.get_connection_options (c : MongoDBConfig) : ConnectionOptions :=
  ⟨c.max_pool_size, c.min_pool_size, c.max_idle_time_ms,
    c.connect_timeout_ms, c.server_selection_timeout_ms⟩

/-- The mutable fields of a `MongoDBClient` instance (`client.py`,
`MongoDBClient.__init__`): the config, the optional connection object
(`self.client`, identified by a number), the `is_ready` flag, the
`last_refresh_time` timestamp, and the optional health-check task
(`self._health_check_task`, identified by a number). -/
structure ClientState where
  config : MongoDBConfig
  client : Option Nat
  is_ready : Bool
  last_refresh_time : Nat
  health_check_task : Option Nat
deriving DecidableEq

/-- `MongoDBClient.__init__`: fresh handle state for a config. -/
def MongoDBClient.init (cfg : MongoDBConfig) : ClientState :=
  { config := cfg, client := none, is_ready := false,
    last_refresh_time := 0, health_check_task := none }

/-- `self._refresh_interval = 300` from `MongoDBClient.__init__`. -/
def refresh_interval : Nat := 300

/-- The external world: the wall clock, suppliers of fresh connection and task
identifiers, the set of connection identifiers that have been closed, and
whether the store answers liveness probes. -/
structure World where
  clock : Nat
  nextConn : Nat
  nextTask : Nat
  closed : List Nat
  reachable : Bool
deriving DecidableEq

/-- `MongoDBClient.connect` from `client.py`: returns immediately when a
connection object already exists; otherwise constructs a connection object,
awaits a `ping` probe, and on success sets `is_ready`, records
`last_refresh_time`, and starts the health-check task.  On probe failure
(`ConnectionFailure`) it sets `is_ready = False` and re-raises; note that the
connection object assigned before the probe is kept. -/
def MongoDBClient.connect (s : ClientState) (w : World) :
    Except PyError Unit × ClientState × World :=
  if s.client.isSome then
    (.ok (), s, w)
  else
    let cid := w.nextConn
    let s1 : ClientState := { s with client := some cid }
    let w1 : World := { w with nextConn := w.nextConn + 1 }
    -- await self.client.admin.command of ping
    let w2 : World := { w1 with clock := w1.clock + 1 }
    if w2.reachable then
      let s2 : ClientState :=
        { s1 with is_ready := true, last_refresh_time := w2.clock,
                  health_check_task := some w2.nextTask }
      (.ok (), s2, { w2 with nextTask := w2.nextTask + 1 })
    else
      (.error .connectionFailure, { s1 with is_ready := false }, w2)

/-- `MongoDBClient.disconnect` from `client.py`: when a connection object
exists, cancels and awaits the health-check task (when present), closes the
connection, clears it and resets `is_ready`; otherwise a no-op. -/
def MongoDBClient.disconnect (s : ClientState) (w : World) : ClientState × World :=
  match s.client with
  | none => (s, w)
  | some cid =>
    let (s1, w1) :=
      match s.health_check_task with
      | some _ =>
          -- cancel the task, await it (an awaited step advances the clock)
          (({ s with health_check_task := none } : ClientState),
           ({ w with clock := w.clock + 1 } : World))
      | none => (s, w)
    (({ s1 with client := none, is_ready := false } : ClientState),
     ({ w1 with closed := cid :: w1.closed } : World))

/-- `MongoDBClient.is_connected` from `client.py`: false when no connection
object exists or `is_ready` is false; otherwise issues a `ping` probe and on
any probe failure sets `is_ready = False` and returns false instead of
raising. -/
def MongoDBClient.is_connected (s : ClientState) (w : World) :
    Bool × ClientState × World :=
  match s.client with
  | none => (false, s, w)
  | some cid =>
    if !s.is_ready then (false, s, w)
    else
      let w1 : World := { w with clock := w.clock + 1 }
      if w1.reachable && !(w1.closed.contains cid) then (true, s, w1)
      else (false, { s with is_ready := false }, w1)

/-- `MongoDBClient.refresh_connection` from `client.py`: under the handle's
lock, `disconnect()` then `connect()`; afterwards `last_refresh_time` is set to
the current time.  When `connect()` raises, the exception propagates and the
final timestamp assignment is not reached. -/
def MongoDBClient.refresh_connection (s : ClientState) (w : World) :
    Except PyError Unit × ClientState × World :=
  let (s1, w1) := MongoDBClient.disconnect s w
  match MongoDBClient.connect s1 w1 with
  | (.error e, s2, w2) => (.error e, s2, w2)
  | (.ok _, s2, w2) => (.ok (), { s2 with last_refresh_time := w2.clock }, w2)

/-- `MongoDBClient.get_database` from `client.py`: raises `ConnectionError`
when no connection object exists, otherwise resolves the database (named or the
config's default) on the current connection. -/
def MongoDBClient.get_database (s : ClientState) (database_name : Option String) :
    Except PyError (Nat × String) :=
  match s.client with
  | none => .error .connectionError
  | some cid => .ok (cid, database_name.getD s.config.database)

/-- A collection reference: the connection identifier it was resolved on, the
database name and the collection name. -/
structure CollRef where
  conn : Nat
  db : String
  coll : String
deriving DecidableEq

/-- `MongoDBClient.get_collection` from `client.py`. -/
def MongoDBClient.get_collection (s : ClientState) (collection_name : String)
    (database_name : Option String) : Except PyError CollRef :=
  match MongoDBClient.get_database s database_name with
  | .error e => .error e
  | .ok (cid, db) => .ok ⟨cid, db, collection_name⟩

example :
    MongoDBClient.connect (MongoDBClient.init { uri := "mongodb://x" })
      ⟨0, 0, 0, [], true⟩ =
    (.ok (), { config := { uri := "mongodb://x" }, client := some 0,
               is_ready := true, last_refresh_time := 1,
               health_check_task := some 0 },
     ⟨1, 1, 1, [], true⟩) := rfl

example :
    (MongoDBClient.refresh_connection
      { config := { uri := "u" }, client := some 3, is_ready := true,
        last_refresh_time := 7, health_check_task := some 1 }
      ⟨9, 4, 2, [], true⟩).2.1.last_refresh_time = 11 := by decide

/-- A Python `dict` assignment `d[k] = v` on an association list: overwrite the
existing entry in place, or append a new one. -/
def dictSet {β : Type} (l : List (String × β)) (k : String) (v : β) :
    List (String × β) :=
  if l.any (fun kv => kv.1 == k) then
    l.map (fun kv => if kv.1 == k then (k, v) else kv)
  else
    l ++ [(k, v)]

/-- A Python `del d[k]` on an association list (dict keys are unique, so
removing every entry with key `k` is the same as removing the single one). -/
def dictDel {β : Type} (l : List (String × β)) (k : String) :
    List (String × β) :=
  l.filter (fun kv => kv.1 != k)

/-- The mutable fields of the `MongoDBClientFactory` singleton (`factory.py`):
the registered configs (`self._configs`), the created handles
(`self._clients`, represented by handle identifiers), the heap of handle
states keyed by handle identifier, and a supply of fresh handle
identifiers. -/
structure MongoDBClientFactory where
  configs : List (String × MongoDBConfig)
  clients : List (String × Nat)
  heap : List (Nat × ClientState)
  nextHandle : Nat
deriving DecidableEq

/-- `MongoDBClientFactory.register_config` from `factory.py`. -/
def MongoDBClientFactory.register_config (f : MongoDBClientFactory)
    (config_name : String) (config : MongoDBConfig) : MongoDBClientFactory :=
  { f with configs := dictSet f.configs config_name config }

/-- `MongoDBClientFactory.create_client` from `factory.py`: raises
`ValueError` when no config is registered under the name; otherwise returns
the existing handle for the name when present, else constructs a new
`MongoDBClient` from the stored config, stores it and returns it.  The factory
state is returned alongside so that the error path visibly leaves it
unchanged. -/
def MongoDBClientFactory.create_client (f : MongoDBClientFactory)
    (config_name : String) : Except PyError Nat × MongoDBClientFactory :=
  match f.configs.lookup config_name with
  | none => (.error .valueError, f)
  | some config =>
    match f.clients.lookup config_name with
    | some h => (.ok h, f)
    | none =>
      let h := f.nextHandle
      (.ok h,
       { f with clients := dictSet f.clients config_name h,
                heap := (h, MongoDBClient.init config) :: f.heap,
                nextHandle := h + 1 })

/-- BSON values as far as this repository manipulates them. -/
inductive BVal where
  | str : String → BVal
  | int : Int → BVal
  | oid : String → BVal
  | boolean : Bool → BVal
deriving DecidableEq

/-- A BSON document: a Python dict from field names to values. -/
abbrev BDoc : Type := List (String × BVal)

/-- The `bson.objectid.ObjectId` constructor contract (external library,
modelled at its documented boundary): a string parses iff it is 24 hex
characters; otherwise the constructor raises `InvalidId`. -/
def parseObjectId (s : String) : Option String :=
  if s.data.length = 24 && s.data.all (fun c =>
      c.isDigit || (('a' ≤ c) && (c ≤ 'f')) || (('A' ≤ c) && (c ≤ 'F'))) then
    some s
  else none

/-- A MongoDB equality query document `{k1: v1, ...}`: a document matches iff
every queried field is present with the queried value. -/
def matchesQuery (q : BDoc) (d : BDoc) : Bool :=
  q.all (fun kv => d.lookup kv.1 == some kv.2)

/-- The update documents this repository issues: only `{"$set": payload}`. -/
inductive UpdateSpec where
  | set : BDoc → UpdateSpec
deriving DecidableEq

/-- Apply a `$set` payload to a document: each payload field overwrites or is
added to the document. -/
def applySet (payload d : BDoc) : BDoc :=
  payload.foldl (fun acc kv => dictSet acc kv.1 kv.2) d

/-- Apply an update document to a matched document. -/
def applyUpdate : UpdateSpec → BDoc → BDoc
  | .set payload, d => applySet payload d

/-- The driver's `collection.update_one`: update the first document matching
the query; `modified_count` is 1 when that document actually changed, else 0.
Returns the count together with the collection's post-state. -/
def collUpdateOne (store : List BDoc) (q : BDoc) (u : UpdateSpec) :
    Nat × List BDoc :=
  match store with
  | [] => (0, [])
  | d :: ds =>
    if matchesQuery q d then
      let d1 := applyUpdate u d
      (if d1 = d then 0 else 1, d1 :: ds)
    else
      let (n, ds1) := collUpdateOne ds q u
      (n, d :: ds1)

/-- `MongoOperation.__init__` from `operations.py`: the facade's only state is
a reference to the handle (a handle identifier resolved through a heap at call
time), the collection name and the optional database-name override. -/
structure MongoOperation where
  client : Nat
  collection_name : String
  database_name : Option String
deriving DecidableEq

/-- `MongoOperation.get_collection` from `operations.py`: resolve the
collection through the handle, reading the handle's current state from the
heap at call time. -/
def MongoOperation.get_collection (op : MongoOperation)
    (env : Nat → ClientState) : Except PyError CollRef :=
  MongoDBClient.get_collection (env op.client) op.collection_name op.database_name

/-- `MongoOperation.find_one`: resolve the collection, then run the driver's
find-one (abstracted as `exec`) on it. -/
def MongoOperation.find_one (op : MongoOperation) (env : Nat → ClientState)
    (exec : CollRef → BDoc → Option BDoc) (query : BDoc) :
    Except PyError (Option BDoc) :=
  match op.get_collection env with
  | .error e => .error e
  | .ok coll => .ok (exec coll query)

/-- `MongoOperation.find_many`: resolve the collection, then run the driver's
find / to-list on it. -/
def MongoOperation.find_many (op : MongoOperation) (env : Nat → ClientState)
    (exec : CollRef → BDoc → List BDoc) (query : BDoc) :
    Except PyError (List BDoc) :=
  match op.get_collection env with
  | .error e => .error e
  | .ok coll => .ok (exec coll query)

/-- `MongoOperation.insert_one`: resolve the collection, insert, return the
generated identifier as a string. -/
def MongoOperation.insert_one (op : MongoOperation) (env : Nat → ClientState)
    (exec : CollRef → BDoc → String) (document : BDoc) :
    Except PyError String :=
  match op.get_collection env with
  | .error e => .error e
  | .ok coll => .ok (exec coll document)

/-- `MongoOperation.insert_many`: resolve the collection, insert, return the
generated identifiers as strings. -/
def MongoOperation.insert_many (op : MongoOperation) (env : Nat → ClientState)
    (exec : CollRef → List BDoc → List String) (documents : List BDoc) :
    Except PyError (List String) :=
  match op.get_collection env with
  | .error e => .error e
  | .ok coll => .ok (exec coll documents)

/-- `MongoOperation.update_one`: resolve the collection, run the driver's
update-one; the Python method returns only `modified_count`, the embedding
also surfaces the collection's post-state (the driver's side effect). -/
def MongoOperation.update_one (op : MongoOperation) (env : Nat → ClientState)
    (exec : CollRef → BDoc → UpdateSpec → Nat × List BDoc)
    (query : BDoc) (update : UpdateSpec) :
    Except PyError (Nat × List BDoc) :=
  match op.get_collection env with
  | .error e => .error e
  | .ok coll => .ok (exec coll query update)

/-- `MongoOperation.update_many`: as `update_one`, with the driver's
update-many. -/
def MongoOperation.update_many (op : MongoOperation) (env : Nat → ClientState)
    (exec : CollRef → BDoc → UpdateSpec → Nat × List BDoc)
    (query : BDoc) (update : UpdateSpec) :
    Except PyError (Nat × List BDoc) :=
  match op.get_collection env with
  | .error e => .error e
  | .ok coll => .ok (exec coll query update)

/-- `MongoOperation.delete_one`: resolve the collection, run the driver's
delete-one, return `deleted_count` with the collection's post-state. -/
def MongoOperation.delete_one (op : MongoOperation) (env : Nat → ClientState)
    (exec : CollRef → BDoc → Nat × List BDoc) (query : BDoc) :
    Except PyError (Nat × List BDoc) :=
  match op.get_collection env with
  | .error e => .error e
  | .ok coll => .ok (exec coll query)

/-- `MongoOperation.delete_many`: as `delete_one`, with the driver's
delete-many. -/
def MongoOperation.delete_many (op : MongoOperation) (env : Nat → ClientState)
    (exec : CollRef → BDoc → Nat × List BDoc) (query : BDoc) :
    Except PyError (Nat × List BDoc) :=
  match op.get_collection env with
  | .error e => .error e
  | .ok coll => .ok (exec coll query)

/-- `MongoOperation.count_documents`: resolve the collection, count. -/
def MongoOperation.count_documents (op : MongoOperation) (env : Nat → ClientState)
    (exec : CollRef → BDoc → Nat) (query : BDoc) : Except PyError Nat :=
  match op.get_collection env with
  | .error e => .error e
  | .ok coll => .ok (exec coll query)

/-- `MongoOperation.aggregate`: resolve the collection, run the pipeline. -/
def MongoOperation.aggregate (op : MongoOperation) (env : Nat → ClientState)
    (exec : CollRef → List BDoc → List BDoc) (pipeline : List BDoc) :
    Except PyError (List BDoc) :=
  match op.get_collection env with
  | .error e => .error e
  | .ok coll => .ok (exec coll pipeline)

/-- `MongoDBRepository.update` from `repository.py`: `del entity["_id"]` when
present (an in-place mutation of the caller's dict), then delegate to
`update_one` with the identifier-equality query `{"_id": ObjectId(id)}` and
the update `{"$set": entity}`, returning `modified_count > 0`.  The embedding
returns the result, the collection's post-state, and the caller's entity dict
as it stands after the call. -/
def MongoDBRepository.update (op : MongoOperation) (env : Nat → ClientState)
    (store : List BDoc) (id : String) (entity : BDoc) :
    Except PyError Bool × List BDoc × BDoc :=
  let entity1 := if (entity.lookup "_id").isSome then dictDel entity "_id" else entity
  match parseObjectId id with
  | none => (.error .invalidObjectId, store, entity1)
  | some o =>
    match MongoOperation.update_one op env (fun _ q u => collUpdateOne store q u)
        [("_id", BVal.oid o)] (.set entity1) with
    | .error e => (.error e, store, entity1)
    | .ok (n, store1) => (.ok (decide (0 < n)), store1, entity1)

/-- Outcome of one iteration of the health-check loop body together with its
exception handlers: continue after an extra back-off sleep of `backoff`
seconds, exit the loop cleanly via `break`, or let an exception escape the
loop. -/
inductive IterOutcome where
  | cont : Nat → IterOutcome
  | exitClean : IterOutcome
  | raised : PyError → IterOutcome
deriving DecidableEq

/-- One iteration of `health_check_routine` from
`MongoDBClient._start_health_check`: when a cancellation signal is delivered
during the iteration, the `except asyncio.CancelledError` arm breaks out of
the loop; otherwise the body runs (refresh when the last refresh is older than
the refresh interval, sleep 30 seconds, probe via `is_connected`, refresh when
unhealthy) and any exception the body raises is caught by the
`except Exception` arm, which logs and sleeps 5 seconds before the next
iteration. -/
def health_check_iteration (cancelled : Bool) (s : ClientState) (w : World) :
    IterOutcome × ClientState × World :=
  if cancelled then
    (.exitClean, s, w)
  else
    match (if refresh_interval < w.clock - s.last_refresh_time then
             MongoDBClient.refresh_connection s w
           else (.ok (), s, w)) with
    | (.error _, s1, w1) => (.cont 5, s1, w1)
    | (.ok _, s1, w1) =>
      let w2 : World := { w1 with clock := w1.clock + 30 }
      match MongoDBClient.is_connected s1 w2 with
      | (true, s3, w3) => (.cont 0, s3, w3)
      | (false, s3, w3) =>
        match MongoDBClient.refresh_connection s3 w3 with
        | (.error _, s4, w4) => (.cont 5, s4, w4)
        | (.ok _, s4, w4) => (.cont 0, s4, w4)

/-- Result of running the health-check loop against a finite schedule of
iterations: still looping when the schedule is exhausted, exited via the
cancellation `break`, or an exception escaped the loop. -/
inductive LoopResult where
  | running : ClientState → World → LoopResult
  | exited : ClientState → World → LoopResult
  | escaped : PyError → LoopResult
deriving DecidableEq

/-- The `while True` loop of `health_check_routine`, run against a finite
schedule: each entry tells whether a cancellation signal arrives during that
iteration. -/
def health_check_routine : List Bool → ClientState → World → LoopResult
  | [], s, w => .running s w
  | c :: rest, s, w =>
    match health_check_iteration c s w with
    | (.exitClean, s1, w1) => .exited s1 w1
    | (.cont _, s1, w1) => health_check_routine rest s1 w1
    | (.raised e, _, _) => .escaped e

/-- Program counter of a coroutine executing `refresh_connection`, cut at its
`await` points: not yet started, suspended awaiting the cancelled health-check
task inside `disconnect()`, suspended awaiting the `ping` probe issued on
connection `c` inside `connect()`, returned normally, or terminated by a
raised exception. -/
inductive CoPC where
  | start
  | awaitingTask
  | awaitingPing : Nat → CoPC
  | doneOk
  | doneErr : PyError → CoPC
deriving DecidableEq

/-- Shared state for two coroutines, A and B, concurrently executing
`refresh_connection` on one handle inside a single-threaded asyncio event
loop.  `lockDepth` is the recursion level of the handle's `threading.RLock`:
both coroutines run on the same OS thread, so an acquisition by either always
succeeds and merely increments the depth. -/
structure RaceState where
  client : Option Nat
  is_ready : Bool
  last_refresh : Nat
  task : Option Nat
  lockDepth : Nat
  closed : List Nat
  nextConn : Nat
  nextTask : Nat
  clock : Nat
  pcA : CoPC
  pcB : CoPC
deriving DecidableEq

/-- Store a coroutine's program counter. -/
def RaceState.setPC (s : RaceState) (who : Bool) (pc : CoPC) : RaceState :=
  if who then { s with pcA := pc } else { s with pcB := pc }

/-- The synchronous tail shared by several atomic blocks of
`refresh_connection`: `connect()` finds `self.client is None`, constructs a
fresh connection object, assigns it, and suspends awaiting the `ping`
probe. -/
def RaceState.allocAndAwaitPing (s : RaceState) (who : Bool) : RaceState :=
  let c := s.nextConn
  RaceState.setPC { s with client := some c, nextConn := c + 1 } who (.awaitingPing c)

/-- One atomic step of coroutine `who` (true = A) running
`refresh_connection` under the event-loop interleaving semantics: each step
runs from one `await` point (or the start) to the next.  Acquiring the
`threading.RLock` always succeeds because both coroutines share the event
loop's thread and the lock is reentrant per thread. -/
def raceStep (reachable : Bool) (s : RaceState) (who : Bool) : RaceState :=
  match (if who then s.pcA else s.pcB) with
  | .start =>
    let s := { s with lockDepth := s.lockDepth + 1 }
    match s.client with
    | none => s.allocAndAwaitPing who
    | some c =>
      match s.task with
      | some _ => s.setPC who .awaitingTask
      | none =>
        let s := { s with closed := c :: s.closed, client := none, is_ready := false }
        s.allocAndAwaitPing who
  | .awaitingTask =>
    let s := { s with task := none }
    match s.client with
    | none =>
      let s := { s with lockDepth := s.lockDepth - 1 }
      s.setPC who (.doneErr .attributeError)
    | some c =>
      let s := { s with closed := c :: s.closed, client := none, is_ready := false }
      s.allocAndAwaitPing who
  | .awaitingPing c =>
    if reachable && !(s.closed.contains c) then
      let s := { s with is_ready := true, task := some s.nextTask,
                        nextTask := s.nextTask + 1, clock := s.clock + 1,
                        lockDepth := s.lockDepth - 1 }
      (RaceState.setPC { s with last_refresh := s.clock } who .doneOk)
    else
      let s := { s with is_ready := false, clock := s.clock + 1,
                        lockDepth := s.lockDepth - 1 }
      s.setPC who (.doneErr .connectionFailure)
  | .doneOk => s
  | .doneErr _ => s

/-- Run a schedule: each entry picks which coroutine performs the next atomic
step. -/
def raceRun (reachable : Bool) (s : RaceState) (sched : List Bool) : RaceState :=
  sched.foldl (raceStep reachable) s

/-- A handle in the `Connected` state (connection object 0 live, health-check
task 0 running) about to be refreshed concurrently by coroutines A and B. -/
def raceInit : RaceState :=
  { client := some 0, is_ready := true, last_refresh := 0, task := some 0,
    lockDepth := 0, closed := [], nextConn := 1, nextTask := 1, clock := 0,
    pcA := .start, pcB := .start }

/-- Every branch of `health_check_iteration` without a cancellation signal
continues the loop. -/
theorem health_check_iteration_continues (s : ClientState) (w : World) :
    ∃ b s1 w1, health_check_iteration false s w = (.cont b, s1, w1) := by
  unfold health_check_iteration
  simp only [Bool.false_eq_true, if_false]
  split
  · exact ⟨5, _, _, rfl⟩
  · split
    · exact ⟨0, _, _, rfl⟩
    · split
      · exact ⟨5, _, _, rfl⟩
      · exact ⟨0, _, _, rfl⟩

/-- C1: for every handle state, when the store is reachable and the handle's
`last_refresh_time` is not in the future of the clock, `refresh_connection()`
returns normally with the handle Connected (connection object present,
`is_ready` true), with `last_refresh_time` strictly greater than before the
call, and with the connection object being exactly the one produced by
running `connect()` after `disconnect()`. -/
theorem refresh_connection_reconnects (cfg : MongoDBConfig) (cl : Option Nat)
    (r : Bool) (t0 k nc nt : Nat) (task : Option Nat) (closed : List Nat) :
    (MongoDBClient.refresh_connection ⟨cfg, cl, r, t0, task⟩ ⟨t0 + k, nc, nt, closed, true⟩).1 =
      .ok () ∧
    (MongoDBClient.refresh_connection ⟨cfg, cl, r, t0, task⟩ ⟨t0 + k, nc, nt, closed, true⟩).2.1.is_ready =
      true ∧
    (MongoDBClient.refresh_connection ⟨cfg, cl, r, t0, task⟩ ⟨t0 + k, nc, nt, closed, true⟩).2.1.client.isSome =
      true ∧
    t0 < (MongoDBClient.refresh_connection ⟨cfg, cl, r, t0, task⟩ ⟨t0 + k, nc, nt, closed, true⟩).2.1.last_refresh_time ∧
    (MongoDBClient.refresh_connection ⟨cfg, cl, r, t0, task⟩ ⟨t0 + k, nc, nt, closed, true⟩).2.1.client =
      (MongoDBClient.connect
        (MongoDBClient.disconnect ⟨cfg, cl, r, t0, task⟩ ⟨t0 + k, nc, nt, closed, true⟩).1
        (MongoDBClient.disconnect ⟨cfg, cl, r, t0, task⟩ ⟨t0 + k, nc, nt, closed, true⟩).2).2.1.client := by
  cases cl <;> cases task <;>
    simp [MongoDBClient.refresh_connection, MongoDBClient.disconnect,
          MongoDBClient.connect] <;> omega

/-- C3 (divergence witness): at the failing input — a freshly constructed
`Disconnected` handle and an unreachable store — `connect()` raises the probe
failure (`ConnectionFailure`) without retrying and leaves `is_ready = false`,
but the connection object assigned before the probe is kept
(`client = some 0`), so the handle is NOT left with no connection object held,
contrary to the claim. -/
theorem connect_probe_failure_keeps_client :
    MongoDBClient.connect (MongoDBClient.init { uri := "mongodb://u" })
        ⟨0, 0, 0, [], false⟩ =
      (.error .connectionFailure,
       { config := { uri := "mongodb://u" }, client := some 0, is_ready := false,
         last_refresh_time := 0, health_check_task := none },
       ⟨1, 1, 0, [], false⟩) ∧
    (MongoDBClient.connect (MongoDBClient.init { uri := "mongodb://u" })
        ⟨0, 0, 0, [], false⟩).2.1.client ≠ none := by
  exact ⟨rfl, by decide⟩

/-- C9: after a `connect()` whose probe failed, the handle's connection-object
field is non-null (`some nc`) while `is_ready` is false; and on every handle
whose connection-object field is non-null, `connect()` returns immediately,
leaving the handle state and the world (connections opened, probes issued,
clock) completely unchanged and raising nothing. -/
theorem connect_after_failure_noop (cfg : MongoDBConfig) (r : Bool) (t0 : Nat)
    (task : Option Nat) (clock nc nt c : Nat) (closed : List Nat) (w : World) :
    MongoDBClient.connect ⟨cfg, none, r, t0, task⟩ ⟨clock, nc, nt, closed, false⟩ =
      (.error .connectionFailure, ⟨cfg, some nc, false, t0, task⟩,
       ⟨clock + 1, nc + 1, nt, closed, false⟩) ∧
    MongoDBClient.connect ⟨cfg, some c, r, t0, task⟩ w =
      (.ok (), ⟨cfg, some c, r, t0, task⟩, w) := by
  constructor <;> simp [MongoDBClient.connect]

/-- C7: `is_connected()` (a) returns false, raising nothing and changing
nothing, when no connection object exists; (b) returns false after any
`disconnect()`; (c) returns false whenever the store does not answer probes;
(d) on a probe failure against a ready handle it clears the internal
`is_ready` flag and returns false instead of raising; (e) likewise when the
probe fails because the connection has been closed, even with the store
reachable. -/
theorem is_connected_spec (cfg : MongoDBConfig) (r : Bool) (t0 : Nat)
    (task : Option Nat) (clock nc nt c : Nat) (closed cs : List Nat)
    (s : ClientState) (w : World) :
    MongoDBClient.is_connected ⟨cfg, none, r, t0, task⟩ w =
      (false, ⟨cfg, none, r, t0, task⟩, w) ∧
    (MongoDBClient.is_connected (MongoDBClient.disconnect s w).1
        (MongoDBClient.disconnect s w).2).1 = false ∧
    (MongoDBClient.is_connected ⟨cfg, some c, r, t0, task⟩
        ⟨clock, nc, nt, closed, false⟩).1 = false ∧
    MongoDBClient.is_connected ⟨cfg, some c, true, t0, task⟩
        ⟨clock, nc, nt, closed, false⟩ =
      (false, ⟨cfg, some c, false, t0, task⟩, ⟨clock + 1, nc, nt, closed, false⟩) ∧
    MongoDBClient.is_connected ⟨cfg, some c, true, t0, task⟩
        ⟨clock, nc, nt, c :: cs, true⟩ =
      (false, ⟨cfg, some c, false, t0, task⟩, ⟨clock + 1, nc, nt, c :: cs, true⟩) := by
  refine ⟨rfl, ?_, ?_, ?_, ?_⟩
  · rcases s with ⟨scfg, scl, sr, st0, stask⟩
    cases scl <;> cases stask <;>
      simp [MongoDBClient.disconnect, MongoDBClient.is_connected]
  · cases r <;> simp [MongoDBClient.is_connected]
  · simp [MongoDBClient.is_connected]
  · simp [MongoDBClient.is_connected]

/-- C2 (divergence witness): two concurrent `refresh_connection()` calls on
one Connected handle, interleaved by the event loop with the schedule
A, B, A, B, A, B and a reachable store.  Because the handle's
`threading.RLock` is reentrant per OS thread and both coroutines run on the
event loop's single thread, after the first two steps BOTH coroutines are
suspended inside the disconnect half of the critical section with lock
recursion depth 2 — the disconnect/connect halves interleave.  Running the
schedule to completion, B's disconnect half closes the connection A's connect
half had just created, so A's refresh raises `ConnectionFailure` even though
the store is reachable, while B completes normally. -/
theorem refresh_race_interleaves :
    (raceRun true raceInit [true, false]).lockDepth = 2 ∧
    (raceRun true raceInit [true, false]).pcA = .awaitingTask ∧
    (raceRun true raceInit [true, false]).pcB = .awaitingTask ∧
    (raceRun true raceInit [true, false, true, false, true, false]).pcA =
      .doneErr .connectionFailure ∧
    (raceRun true raceInit [true, false, true, false, true, false]).pcB =
      .doneOk := by
  decide

/-- An iteration of the health-check loop never lets an exception escape:
its only outcomes are a clean `break` on cancellation and continuing the
loop. -/
theorem health_check_iteration_not_raised (c : Bool) (s : ClientState)
    (w : World) (e : PyError) :
    (health_check_iteration c s w).1 ≠ .raised e := by
  cases c with
  | true => simp [health_check_iteration]
  | false =>
    obtain ⟨b, s1, w1, h⟩ := health_check_iteration_continues s w
    simp [h]

/-- C8: the health-check loop (run against any finite schedule of iterations,
each entry saying whether a cancellation signal arrives during that
iteration) exits if and only if a cancellation signal arrives — on
cancellation it breaks out of the loop cleanly, and otherwise it keeps
running; no exception ever escapes the loop to a caller; and in an iteration
whose body fails (here: the probe fails and the recovery
`refresh_connection()` raises because the store is unreachable) the loop
continues after the 5-second back-off sleep. -/
theorem health_check_loop_spec :
    (∀ (evs : List Bool) (s : ClientState) (w : World),
      (∃ s1 w1, health_check_routine evs s w = .exited s1 w1) ↔ true ∈ evs) ∧
    (∀ (c : Bool) (s : ClientState) (w : World) (e : PyError),
      (health_check_iteration c s w).1 ≠ .raised e) ∧
    (∀ (evs : List Bool) (s : ClientState) (w : World) (e : PyError),
      health_check_routine evs s w ≠ .escaped e) ∧
    (∀ (cfg : MongoDBConfig) (c t0 nc nt : Nat) (task : Option Nat)
        (closed : List Nat),
      ∃ s1 w1,
        health_check_iteration false ⟨cfg, some c, true, t0, task⟩
          ⟨t0, nc, nt, closed, false⟩ = (.cont 5, s1, w1)) := by
  refine ⟨?_, health_check_iteration_not_raised, ?_, ?_⟩
  · intro evs
    induction evs with
    | nil =>
      intro s w
      simp [health_check_routine]
    | cons c rest ih =>
      intro s w
      cases c with
      | true =>
        simp [health_check_routine, health_check_iteration]
      | false =>
        obtain ⟨b, s1, w1, h⟩ := health_check_iteration_continues s w
        simp [health_check_routine, h, ih]
  · intro evs
    induction evs with
    | nil =>
      intro s w e
      simp [health_check_routine]
    | cons c rest ih =>
      intro s w e
      cases c with
      | true =>
        simp [health_check_routine, health_check_iteration]
      | false =>
        obtain ⟨b, s1, w1, h⟩ := health_check_iteration_continues s w
        simp [health_check_routine, h, ih]
  · intro cfg c t0 nc nt task closed
    cases task <;>
      simp [health_check_iteration, MongoDBClient.is_connected,
            MongoDBClient.refresh_connection, MongoDBClient.disconnect,
            MongoDBClient.connect, refresh_interval]

/-- C4: every OperationFacade operation (find-one, find-many, insert-one,
insert-many, update-one, update-many, delete-one, delete-many, count,
aggregate) equals "resolve the collection from the ConnectionHandle's current
state, then run the driver call on the resolved collection" — the facade,
whose only fields are the handle reference, collection name and optional
database-name override, caches no connection or collection across calls — and
resolving through a heap in which the handle was just refreshed yields exactly
the connection installed by that refresh, so a refresh between two calls is
transparently picked up by the second call. -/
theorem operations_reresolve_collection :
    (∀ (op : MongoOperation) (env : Nat → ClientState)
        (exec : CollRef → BDoc → Option BDoc) (q : BDoc),
      op.find_one env exec q = (op.get_collection env).map (fun coll => exec coll q)) ∧
    (∀ (op : MongoOperation) (env : Nat → ClientState)
        (exec : CollRef → BDoc → List BDoc) (q : BDoc),
      op.find_many env exec q = (op.get_collection env).map (fun coll => exec coll q)) ∧
    (∀ (op : MongoOperation) (env : Nat → ClientState)
        (exec : CollRef → BDoc → String) (d : BDoc),
      op.insert_one env exec d = (op.get_collection env).map (fun coll => exec coll d)) ∧
    (∀ (op : MongoOperation) (env : Nat → ClientState)
        (exec : CollRef → List BDoc → List String) (ds : List BDoc),
      op.insert_many env exec ds = (op.get_collection env).map (fun coll => exec coll ds)) ∧
    (∀ (op : MongoOperation) (env : Nat → ClientState)
        (exec : CollRef → BDoc → UpdateSpec → Nat × List BDoc) (q : BDoc) (u : UpdateSpec),
      op.update_one env exec q u = (op.get_collection env).map (fun coll => exec coll q u)) ∧
    (∀ (op : MongoOperation) (env : Nat → ClientState)
        (exec : CollRef → BDoc → UpdateSpec → Nat × List BDoc) (q : BDoc) (u : UpdateSpec),
      op.update_many env exec q u = (op.get_collection env).map (fun coll => exec coll q u)) ∧
    (∀ (op : MongoOperation) (env : Nat → ClientState)
        (exec : CollRef → BDoc → Nat × List BDoc) (q : BDoc),
      op.delete_one env exec q = (op.get_collection env).map (fun coll => exec coll q)) ∧
    (∀ (op : MongoOperation) (env : Nat → ClientState)
        (exec : CollRef → BDoc → Nat × List BDoc) (q : BDoc),
      op.delete_many env exec q = (op.get_collection env).map (fun coll => exec coll q)) ∧
    (∀ (op : MongoOperation) (env : Nat → ClientState)
        (exec : CollRef → BDoc → Nat) (q : BDoc),
      op.count_documents env exec q = (op.get_collection env).map (fun coll => exec coll q)) ∧
    (∀ (op : MongoOperation) (env : Nat → ClientState)
        (exec : CollRef → List BDoc → List BDoc) (p : List BDoc),
      op.aggregate env exec p = (op.get_collection env).map (fun coll => exec coll p)) ∧
    (∀ (op : MongoOperation) (envOld : Nat → ClientState) (cfg : MongoDBConfig)
        (cl : Option Nat) (r : Bool) (t0 k nc nt : Nat) (task : Option Nat)
        (closed : List Nat) (exec : CollRef → BDoc → Option BDoc) (q : BDoc),
      op.get_collection (fun h =>
          if h = op.client then
            (MongoDBClient.refresh_connection ⟨cfg, cl, r, t0, task⟩
              ⟨t0 + k, nc, nt, closed, true⟩).2.1
          else envOld h) =
        .ok ⟨nc, op.database_name.getD cfg.database, op.collection_name⟩ ∧
      op.find_one (fun h =>
          if h = op.client then
            (MongoDBClient.refresh_connection ⟨cfg, cl, r, t0, task⟩
              ⟨t0 + k, nc, nt, closed, true⟩).2.1
          else envOld h) exec q =
        .ok (exec ⟨nc, op.database_name.getD cfg.database, op.collection_name⟩ q)) := by
  refine ⟨?_, ?_, ?_, ?_, ?_, ?_, ?_, ?_, ?_, ?_, ?_⟩
  · intro op env exec q
    cases h : op.get_collection env <;>
      simp [MongoOperation.find_one, h, Except.map]
  · intro op env exec q
    cases h : op.get_collection env <;>
      simp [MongoOperation.find_many, h, Except.map]
  · intro op env exec d
    cases h : op.get_collection env <;>
      simp [MongoOperation.insert_one, h, Except.map]
  · intro op env exec ds
    cases h : op.get_collection env <;>
      simp [MongoOperation.insert_many, h, Except.map]
  · intro op env exec q u
    cases h : op.get_collection env <;>
      simp [MongoOperation.update_one, h, Except.map]
  · intro op env exec q u
    cases h : op.get_collection env <;>
      simp [MongoOperation.update_many, h, Except.map]
  · intro op env exec q
    cases h : op.get_collection env <;>
      simp [MongoOperation.delete_one, h, Except.map]
  · intro op env exec q
    cases h : op.get_collection env <;>
      simp [MongoOperation.delete_many, h, Except.map]
  · intro op env exec q
    cases h : op.get_collection env <;>
      simp [MongoOperation.count_documents, h, Except.map]
  · intro op env exec p
    cases h : op.get_collection env <;>
      simp [MongoOperation.aggregate, h, Except.map]
  · intro op envOld cfg cl r t0 k nc nt task closed exec q
    cases cl <;> cases task <;>
      simp [MongoOperation.get_collection, MongoOperation.find_one,
            MongoDBClient.get_collection, MongoDBClient.get_database,
            MongoDBClient.refresh_connection, MongoDBClient.disconnect,
            MongoDBClient.connect]

/-- When no key of `l` equals `k`, lookup misses. -/
theorem lookup_eq_none_of_any_eq_false {β : Type} (l : List (String × β))
    (k : String) (h : l.any (fun kv => kv.1 == k) = false) :
    l.lookup k = none := by
  induction l with
  | nil => rfl
  | cons a tl ih =>
    obtain ⟨a1, a2⟩ := a
    simp only [List.any_cons, Bool.or_eq_false_iff] at h
    have h1 : (k == a1) = false := by
      have := h.1
      simp only [beq_eq_false_iff_ne] at this ⊢
      exact fun e => this e.symm
    simp [List.lookup, h1, ih h.2]

/-- Overwriting the entry for `k` makes lookup of `k` find the new value. -/
theorem lookup_map_replace {β : Type} (l : List (String × β)) (k : String)
    (v : β) (h : l.any (fun kv => kv.1 == k) = true) :
    (l.map (fun kv => if kv.1 == k then (k, v) else kv)).lookup k = some v := by
  induction l with
  | nil => simp at h
  | cons a tl ih =>
    obtain ⟨a1, a2⟩ := a
    simp only [List.map_cons]
    cases h1 : (a1 == k) with
    | true =>
      have hk : a1 = k := by simpa using h1
      subst hk
      simp [List.lookup]
    | false =>
      rw [if_neg (by simp [h1])]
      have h2 : (k == a1) = false := by
        simp only [beq_eq_false_iff_ne] at h1 ⊢
        exact fun e => h1 e.symm
      simp only [List.any_cons, h1, Bool.false_or] at h
      simp only [List.lookup, h2]
      exact ih h

/-- Appending a fresh binding is found when the original list misses. -/
theorem lookup_append_single {β : Type} (l : List (String × β)) (k : String)
    (v : β) (h : l.lookup k = none) : (l ++ [(k, v)]).lookup k = some v := by
  induction l with
  | nil => simp [List.lookup]
  | cons a tl ih =>
    obtain ⟨a1, a2⟩ := a
    cases hk : (k == a1) with
    | true => simp [List.lookup, hk] at h
    | false =>
      simp only [List.lookup, hk] at h
      simp only [List.cons_append, List.lookup, hk]
      exact ih h

/-- A dict assignment `l[k] = v` makes lookup of `k` find `v`. -/
theorem lookup_dictSet_self {β : Type} (l : List (String × β)) (k : String)
    (v : β) : (dictSet l k v).lookup k = some v := by
  by_cases h : l.any (fun kv => kv.1 == k) = true
  · unfold dictSet
    rw [if_pos h]
    exact lookup_map_replace l k v h
  · have h0 : l.any (fun kv => kv.1 == k) = false := by
      revert h
      cases l.any (fun kv => kv.1 == k) <;> simp
    unfold dictSet
    rw [if_neg (by simp [h0])]
    exact lookup_append_single l k v (lookup_eq_none_of_any_eq_false l k h0)

/-- C5: `create_client(name)` with an unregistered name raises `ValueError`
and leaves the registry unchanged (no handle is constructed); with a
registered name it returns a handle such that calling `create_client(name)`
again returns the very same handle and changes nothing — the registry holds
at most one handle per name, constructed lazily on first call. -/
theorem create_client_registry_spec (f : MongoDBClientFactory) (name : String) :
    (f.configs.lookup name = none →
      f.create_client name = (.error .valueError, f)) ∧
    (∀ cfg, f.configs.lookup name = some cfg →
      ∃ h f1, f.create_client name = (.ok h, f1) ∧
        f1.create_client name = (.ok h, f1) ∧ f1.configs = f.configs) := by
  constructor
  · intro h
    simp [MongoDBClientFactory.create_client, h]
  · intro cfg hc
    cases hcl : f.clients.lookup name with
    | some h =>
      refine ⟨h, f, ?_, ?_, rfl⟩ <;>
        simp [MongoDBClientFactory.create_client, hc, hcl]
    | none =>
      refine ⟨f.nextHandle,
        { f with clients := dictSet f.clients name f.nextHandle,
                 heap := (f.nextHandle, MongoDBClient.init cfg) :: f.heap,
                 nextHandle := f.nextHandle + 1 }, ?_, ?_, rfl⟩
      · simp [MongoDBClientFactory.create_client, hc, hcl]
      · simp [MongoDBClientFactory.create_client, hc, hcl, lookup_dictSet_self]

/-- Witness for C5 at a concrete registry: one config registered under
`"default"`, nothing registered under `"missing"`. -/
theorem create_client_registry_spec_witness :
    ((⟨[("default", { uri := "mongodb://u" })], [], [], 0⟩ :
        MongoDBClientFactory).configs.lookup "missing" = none ∧
      (⟨[("default", { uri := "mongodb://u" })], [], [], 0⟩ :
        MongoDBClientFactory).create_client "missing" =
        (.error .valueError, ⟨[("default", { uri := "mongodb://u" })], [], [], 0⟩)) ∧
    ∃ h f1,
      (⟨[("default", { uri := "mongodb://u" })], [], [], 0⟩ :
        MongoDBClientFactory).create_client "default" = (.ok h, f1) ∧
      f1.create_client "default" = (.ok h, f1) ∧
      f1.configs = [("default", { uri := "mongodb://u" })] := by
  constructor
  · exact ⟨by decide, (create_client_registry_spec _ "missing").1 (by decide)⟩
  · exact (create_client_registry_spec
      ⟨[("default", { uri := "mongodb://u" })], [], [], 0⟩ "default").2
      { uri := "mongodb://u" } (by decide)

/-- After `del l[k]`, lookup of `k` misses. -/
theorem lookup_dictDel_self {β : Type} (l : List (String × β)) (k : String) :
    (dictDel l k).lookup k = none := by
  induction l with
  | nil => rfl
  | cons a tl ih =>
    obtain ⟨a1, a2⟩ := a
    unfold dictDel at ih ⊢
    cases h1 : (a1 == k) with
    | true =>
      simp only [List.filter_cons, bne, h1, Bool.not_true]
      exact ih
    | false =>
      have h2 : (k == a1) = false := by
        simp only [beq_eq_false_iff_ne] at h1 ⊢
        exact fun e => h1 e.symm
      simp only [List.filter_cons, bne, h1, Bool.not_false, List.lookup, h2]
      exact ih

/-- `del l[k]` leaves lookups of other keys unchanged. -/
theorem lookup_dictDel_ne {β : Type} (l : List (String × β)) (k q : String)
    (h : q ≠ k) : (dictDel l k).lookup q = l.lookup q := by
  induction l with
  | nil => rfl
  | cons a tl ih =>
    obtain ⟨a1, a2⟩ := a
    unfold dictDel at ih ⊢
    cases h1 : (a1 == k) with
    | true =>
      have ha : a1 = k := by simpa using h1
      have h2 : (q == a1) = false := by
        simp only [beq_eq_false_iff_ne]
        exact fun e => h (e.trans ha)
      simp only [List.filter_cons, bne, h1, Bool.not_true, List.lookup, h2]
      exact ih
    | false =>
      simp only [List.filter_cons, bne, h1, Bool.not_false, List.lookup]
      cases h2 : (q == a1) with
      | true => rfl
      | false => exact ih


/-- `del l[k]` on a dict without the key `k` is the identity. -/
theorem dictDel_of_lookup_none {β : Type} (l : List (String × β)) (k : String)
    (h : l.lookup k = none) : dictDel l k = l := by
  induction l with
  | nil => rfl
  | cons a tl ih =>
    obtain ⟨a1, a2⟩ := a
    cases h1 : (k == a1) with
    | true => simp [List.lookup, h1] at h
    | false =>
      simp only [List.lookup, h1] at h
      have h2 : (a1 != k) = true := by
        simp only [bne, Bool.not_eq_true', beq_eq_false_iff_ne] at h1 ⊢
        exact fun e => h1 e.symm
      show List.filter (fun kv => kv.1 != k) ((a1, a2) :: tl) = (a1, a2) :: tl
      simp only [List.filter_cons, h2, if_true]
      exact congrArg (List.cons (a1, a2)) (ih h)

/-- Every entry surviving `del l[k]` has a key other than `k`. -/
theorem mem_dictDel_key_ne {β : Type} (l : List (String × β)) (k : String) :
    ∀ kv ∈ dictDel l k, kv.1 ≠ k := by
  intro kv hkv
  have := List.of_mem_filter hkv
  simpa [bne] using this

/-- Replacing the binding of key `k` leaves lookups of other keys
unchanged. -/
theorem lookup_map_replace_ne {β : Type} (l : List (String × β)) (k q : String)
    (v : β) (h : q ≠ k) :
    (l.map (fun kv => if kv.1 == k then (k, v) else kv)).lookup q = l.lookup q := by
  induction l with
  | nil => rfl
  | cons a tl ih =>
    obtain ⟨a1, a2⟩ := a
    simp only [List.map_cons]
    cases h1 : (a1 == k) with
    | true =>
      have ha : a1 = k := by simpa using h1
      have h2 : (q == a1) = false := by
        simp only [beq_eq_false_iff_ne]
        exact fun e => h (e.trans ha)
      have h3 : (q == k) = false := by
        simp only [beq_eq_false_iff_ne]
        exact h
      simp only [if_pos rfl, List.lookup, h2, h3]
      exact ih
    | false =>
      simp only [Bool.false_eq_true, if_false, List.lookup]
      cases h2 : (q == a1) with
      | true => rfl
      | false => exact ih

/-- Appending a binding for key `k` leaves lookups of other keys
unchanged. -/
theorem lookup_append_single_ne {β : Type} (l : List (String × β)) (k q : String)
    (v : β) (h : q ≠ k) : (l ++ [(k, v)]).lookup q = l.lookup q := by
  induction l with
  | nil =>
    have h3 : (q == k) = false := by
      simp only [beq_eq_false_iff_ne]
      exact h
    simp [List.lookup, h3]
  | cons a tl ih =>
    obtain ⟨a1, a2⟩ := a
    simp only [List.cons_append, List.lookup]
    cases h2 : (q == a1) with
    | true => rfl
    | false => exact ih

/-- Setting key `k` leaves lookups of other keys unchanged. -/
theorem lookup_dictSet_ne {β : Type} (l : List (String × β)) (k q : String)
    (v : β) (h : q ≠ k) : (dictSet l k v).lookup q = l.lookup q := by
  unfold dictSet
  split
  · exact lookup_map_replace_ne l k q v h
  · exact lookup_append_single_ne l k q v h

/-- A `$set` payload containing no binding for `key` leaves the document's
`key` field unchanged. -/
theorem lookup_applySet_ne (payload d : BDoc) (key : String)
    (h : ∀ kv ∈ payload, kv.1 ≠ key) :
    (applySet payload d).lookup key = d.lookup key := by
  induction payload generalizing d with
  | nil => rfl
  | cons a tl ih =>
    obtain ⟨a1, a2⟩ := a
    have h1 : a1 ≠ key := h (a1, a2) (List.mem_cons_self _ _)
    have h2 : ∀ kv ∈ tl, kv.1 ≠ key := fun kv hkv => h kv (List.mem_cons_of_mem _ hkv)
    show (applySet tl (dictSet d a1 a2)).lookup key = d.lookup key
    rw [ih (dictSet d a1 a2) h2]
    exact lookup_dictSet_ne d a1 key a2 (fun e => h1 e.symm)

/-- `collection.update_one` with a `$set` payload that does not bind `key`
leaves every document's `key` field unchanged (the post-state's `key`
projections equal the pre-state's). -/
theorem collUpdateOne_preserves_key (store : List BDoc) (q : BDoc)
    (payload : BDoc) (key : String) (h : ∀ kv ∈ payload, kv.1 ≠ key) :
    ((collUpdateOne store q (.set payload)).2).map (fun d => d.lookup key) =
      store.map (fun d => d.lookup key) := by
  induction store with
  | nil => rfl
  | cons d ds ih =>
    unfold collUpdateOne
    cases hm : matchesQuery q d with
    | true =>
      simp only [hm, if_true, List.map_cons]
      exact congrArg (fun t => t :: ds.map (fun d => d.lookup key))
        (lookup_applySet_ne payload d key h)
    | false =>
      simp only [hm, Bool.false_eq_true, if_false, List.map_cons]
      exact congrArg (List.cons (d.lookup key)) ih

/-- `collection.update_one` against a query matched by no stored document
reports zero modifications and leaves the collection unchanged. -/
theorem collUpdateOne_no_match (store : List BDoc) (q : BDoc) (u : UpdateSpec)
    (h : ∀ d ∈ store, matchesQuery q d = false) :
    collUpdateOne store q u = (0, store) := by
  induction store with
  | nil => rfl
  | cons d ds ih =>
    have h1 : matchesQuery q d = false := h d (List.mem_cons_self _ _)
    have h2 : ∀ d1 ∈ ds, matchesQuery q d1 = false :=
      fun d1 hd => h d1 (List.mem_cons_of_mem _ hd)
    unfold collUpdateOne
    rw [h1]
    simp only [Bool.false_eq_true, if_false, ih h2]

/-- The caller's entity dict, as `MongoDBRepository.update` leaves it: the
`"_id"` key deleted in place when it was present, every branch of the method
included. -/
theorem update_entity_after (op : MongoOperation) (env : Nat → ClientState)
    (store : List BDoc) (id : String) (entity : BDoc) :
    (MongoDBRepository.update op env store id entity).2.2 =
      if (entity.lookup "_id").isSome then dictDel entity "_id" else entity := by
  unfold MongoDBRepository.update
  cases hp : parseObjectId id with
  | none => rfl
  | some o =>
    cases hu : MongoOperation.update_one op env
        (fun _ q u => collUpdateOne store q u) [("_id", BVal.oid o)]
        (.set (if (entity.lookup "_id").isSome then dictDel entity "_id" else entity)) with
    | error e => simp [hu]
    | ok p => simp [hu]

/-- C6: for a parsable identifier and a resolvable collection,
`MongoDBRepository.update(id, entity)` returns normally the boolean
`modified_count > 0`, delegating an update that `$set`s only the
non-identifier fields of `entity` (the `"_id"` field is stripped from the
payload); the `"_id"` projection of every stored document is unchanged
regardless of any `"_id"` value in `entity`; and against an identifier
matching no stored document the modified count is zero, so the call returns
false without raising. -/
theorem repository_update_spec (op : MongoOperation) (env : Nat → ClientState)
    (store : List BDoc) (id : String) (entity : BDoc) (o : String) (c : Nat)
    (hid : parseObjectId id = some o)
    (hc : (env op.client).client = some c) :
    ∃ n store1,
      collUpdateOne store [("_id", BVal.oid o)] (.set (dictDel entity "_id")) =
        (n, store1) ∧
      MongoDBRepository.update op env store id entity =
        (.ok (decide (0 < n)), store1, dictDel entity "_id") ∧
      store1.map (fun d => d.lookup "_id") = store.map (fun d => d.lookup "_id") ∧
      ((∀ d ∈ store, d.lookup "_id" ≠ some (BVal.oid o)) → n = 0) := by
  have hent : (if (entity.lookup "_id").isSome then dictDel entity "_id" else entity) =
      dictDel entity "_id" := by
    cases hl : entity.lookup "_id" with
    | none => simp [dictDel_of_lookup_none entity "_id" hl]
    | some v => simp
  refine ⟨(collUpdateOne store [("_id", BVal.oid o)] (.set (dictDel entity "_id"))).1,
          (collUpdateOne store [("_id", BVal.oid o)] (.set (dictDel entity "_id"))).2,
          rfl, ?_, ?_, ?_⟩
  · simp only [MongoDBRepository.update, hent, hid, MongoOperation.update_one,
      MongoOperation.get_collection, MongoDBClient.get_collection,
      MongoDBClient.get_database, hc]
  · exact collUpdateOne_preserves_key store [("_id", BVal.oid o)]
      (dictDel entity "_id") "_id" (mem_dictDel_key_ne entity "_id")
  · intro hnone
    have hm : ∀ d ∈ store, matchesQuery [("_id", BVal.oid o)] d = false := by
      intro d hd
      simp only [matchesQuery, List.all_cons, List.all_nil, Bool.and_true,
        beq_eq_false_iff_ne]
      exact hnone d hd
    rw [collUpdateOne_no_match store [("_id", BVal.oid o)]
      (.set (dictDel entity "_id")) hm]

/-- Witness for C6: a store holding one user document, updated through a
valid 24-hex-character identifier with an entity that tries to overwrite
`"_id"`. -/
theorem repository_update_spec_witness :
    ∃ n store1,
      collUpdateOne
          [[("_id", BVal.oid "0123456789abcdef01234567"), ("name", BVal.str "a")]]
          [("_id", BVal.oid "0123456789abcdef01234567")]
          (.set (dictDel [("_id", BVal.str "x"), ("name", BVal.str "b")] "_id")) =
        (n, store1) ∧
      MongoDBRepository.update ⟨0, "users", none⟩
          (fun _ => ⟨{ uri := "mongodb://u" }, some 5, true, 0, none⟩)
          [[("_id", BVal.oid "0123456789abcdef01234567"), ("name", BVal.str "a")]]
          "0123456789abcdef01234567"
          [("_id", BVal.str "x"), ("name", BVal.str "b")] =
        (.ok (decide (0 < n)), store1,
         dictDel [("_id", BVal.str "x"), ("name", BVal.str "b")] "_id") ∧
      store1.map (fun d => d.lookup "_id") =
        [[("_id", BVal.oid "0123456789abcdef01234567"),
          ("name", BVal.str "a")]].map (fun d => d.lookup "_id") ∧
      ((∀ d ∈ [[("_id", BVal.oid "0123456789abcdef01234567"),
                ("name", BVal.str "a")]],
          d.lookup "_id" ≠ some (BVal.oid "0123456789abcdef01234567")) → n = 0) :=
  repository_update_spec ⟨0, "users", none⟩
    (fun _ => ⟨{ uri := "mongodb://u" }, some 5, true, 0, none⟩)
    [[("_id", BVal.oid "0123456789abcdef01234567"), ("name", BVal.str "a")]]
    "0123456789abcdef01234567" [("_id", BVal.str "x"), ("name", BVal.str "b")]
    "0123456789abcdef01234567" 5 (by decide) rfl

/-- C10: when the caller's entity dict contains an `"_id"` key,
`MongoDBRepository.update(id, entity)` deletes that key from the caller's own
dict in place before delegating — after the call the entity no longer
contains `"_id"` — while lookups of every other key are unchanged. -/
theorem update_mutates_entity_in_place (op : MongoOperation)
    (env : Nat → ClientState) (store : List BDoc) (id : String) (entity : BDoc)
    (h : (entity.lookup "_id").isSome = true) :
    (MongoDBRepository.update op env store id entity).2.2.lookup "_id" = none ∧
    ∀ k : String, k ≠ "_id" →
      (MongoDBRepository.update op env store id entity).2.2.lookup k =
        entity.lookup k := by
  rw [update_entity_after, if_pos h]
  exact ⟨lookup_dictDel_self entity "_id",
         fun k1 hk1 => lookup_dictDel_ne entity "_id" k1 hk1⟩

/-- Witness for C10: an entity dict carrying an `"_id"` entry loses exactly
that entry in place, keeping its `"name"` entry. -/
theorem update_mutates_entity_in_place_witness :
    (MongoDBRepository.update ⟨0, "users", none⟩
        (fun _ => MongoDBClient.init { uri := "mongodb://u" }) [] "x"
        [("_id", BVal.str "i"), ("name", BVal.str "a")]).2.2.lookup "_id" =
      none ∧
    (MongoDBRepository.update ⟨0, "users", none⟩
        (fun _ => MongoDBClient.init { uri := "mongodb://u" }) [] "x"
        [("_id", BVal.str "i"), ("name", BVal.str "a")]).2.2.lookup "name" =
      some (BVal.str "a") := by
  constructor
  · exact (update_mutates_entity_in_place ⟨0, "users", none⟩
      (fun _ => MongoDBClient.init { uri := "mongodb://u" }) [] "x"
      [("_id", BVal.str "i"), ("name", BVal.str "a")] (by decide)).1
  · have h1 := (update_mutates_entity_in_place ⟨0, "users", none⟩
      (fun _ => MongoDBClient.init { uri := "mongodb://u" }) [] "x"
      [("_id", BVal.str "i"), ("name", BVal.str "a")] (by decide)).2 "name"
      (by decide)
    rw [h1]
    decide
